import Mathlib

/-!
Verification of the bizledger accounting/inventory kernel.

This file gives a shallow embedding, in Lean 4, of the kernel of the
bizledger double-entry bookkeeping and inventory-valuation engine:

* the chart-of-accounts model and its save-time validation
  (`src/ledger/models.py`, `Account.clean` / `Account.save`),
* the voucher posting state machine (`Voucher.validate_balanced`,
  `Voucher.post`),
* the stock ledger movement helpers and voucher views
  (`src/inventory/views.py`: `_stock_balance`, `_entry_amount`,
  `sales_voucher`, `stock_journal`),
* weighted-average stock valuation
  (`src/ledger/services/stock_valuation.py`),
* the Profit and Loss and Balance Sheet derivations
  (`src/ledger/services/pnl.py`, `src/ledger/services/balance_sheet.py`).

Modelling conventions:

* Python `Decimal` values are embedded as scaled integers, exactly as the
  schema constrains them: monetary amounts (`decimal_places=2`) as `ℤ` in
  cents, quantities (`decimal_places=3`) as `ℤ` in thousandths of a unit.
  The two genuine rounding sites of the source (`amount = qty * rate` and the
  per-item stock value, both `.quantize(Decimal("0.01"))` with the default
  `ROUND_HALF_EVEN`) become `rheDiv`, a round-half-even integer division; a
  `.quantize(Decimal("0.01"))` applied to a value that is already an exact
  number of cents is the identity and is embedded as `quantize2` to keep the
  call sites of the source visible.
* Dates are embedded as `ℤ` (a day count); `date - timedelta(days=1)` becomes
  subtraction of 1.  Optional arguments (`None` in Python) become `Option`.
* A `BizState` holds the rows of one business: its accounts, vouchers
  (with their lines inlined) and stock ledger entries, plus `today`
  (the value of `date.today()` used as a fallback in the P&L).
* Django querysets are embedded as `List` filters over the state; `GROUP BY`
  aggregation becomes deduplication of key lists plus sums over filters.
  `order_by` clauses of the source are not modelled: every quantity proved
  about below is a sum or a set-like property, invariant under reordering.
-/

namespace BizLedger

/-- Round `n / d` (for `d > 0`) to the nearest integer, ties going to the
even integer.  This is `ROUND_HALF_EVEN`, the default rounding of Python
`Decimal.quantize`, expressed on scaled integers. -/
def rheDiv (n d : ℤ) : ℤ :=
  let q := Int.ediv n d
  let r := Int.emod n d
  if 2 * r < d then q
  else if d < 2 * r then q + 1
  else if q % 2 = 0 then q else q + 1

/-- `Decimal.quantize(Decimal("0.01"))` applied to a value that is already an
exact number of cents: the identity.  Kept as a definition so every quantize
call of the source remains visible in the embedding. -/
def quantize2 (m : ℤ) : ℤ := m

/-- `(qty * rate).quantize(Decimal("0.01"))` of the source, on a quantity in
thousandths and a rate in cents: the product is in hundred-thousandths of a
currency unit, so dividing by 1000 (half-even) yields cents. -/
def mulQtyRate (qty rate : ℤ) : ℤ := rheDiv (qty * rate) 1000

/-- `root_type` values (`ledger.models.RootType`). A blank stored string is
embedded as `none` at the `Option RootT` level. -/
inductive RootT where
  | ASSET
  | LIABILITY
  | INCOME
  | EXPENSE
deriving DecidableEq, Repr

/-- `report_type` values (`ledger.models.ReportType`). -/
inductive ReportT where
  | BS
  | PL
deriving DecidableEq, Repr

/-- `ledger.models.report_type_from_root`: INCOME/EXPENSE map to the Profit &
Loss report, everything else to the Balance Sheet. -/
def report_type_from_root (root_type : RootT) : ReportT :=
  match root_type with
  | .INCOME => .PL
  | .EXPENSE => .PL
  | _ => .BS

/-- A row of `ledger.models.Account`.  `rootType = none` embeds a blank
`root_type` string; `openingBalanceCr = true` embeds
`opening_balance_type = "CR"`. -/
structure Accnt where
  id : ℕ
  parentId : Option ℕ
  businessId : ℕ
  name : String
  isGroup : Bool
  rootType : Option RootT
  reportType : ReportT
  isPrimaryLedger : Bool
  isRoot : Bool
  openingBalance : ℤ
  openingBalanceCr : Bool
deriving DecidableEq, Repr

/-- A row of `ledger.models.VoucherLine` (the owning voucher is implicit:
lines are stored inline in `Vchr`). -/
structure VLine where
  accountId : ℕ
  debit : ℤ
  credit : ℤ
deriving DecidableEq, Repr

/-- A row of `ledger.models.Voucher`, with its lines inlined. -/
structure Vchr where
  id : ℕ
  number : ℕ
  voucherType : String
  postingDate : ℤ
  narration : String
  isPosted : Bool
  postedAt : Option ℤ
  postedBy : Option ℕ
  lines : List VLine
deriving DecidableEq, Repr

/-- A row of `inventory.models.StockLedgerEntry`. -/
structure SLE where
  businessId : ℕ
  itemId : ℕ
  godownId : ℕ
  postingDate : ℤ
  qtyIn : ℤ
  qtyOut : ℤ
  rate : ℤ
  amount : ℤ
  voucherType : String
  voucherId : Option ℕ
  isPosted : Bool
deriving DecidableEq, Repr

/-- The persisted rows of one business, plus `today` (the clock value the P&L
uses when no end date is given). -/
structure BizState where
  accounts : List Accnt
  vouchers : List Vchr
  entries : List SLE
  today : ℤ
deriving DecidableEq, Repr

/-- Lookup of an account row by primary key. -/
def findAcc (st : BizState) (aid : ℕ) : Option Accnt :=
  st.accounts.find? (fun a => a.id == aid)

/-!
## Root-type resolution walk (`ledger/services/pnl.py`, `_resolve_root_types`)

The source walks the parent chain of an account with a `seen` set, returning
`None` on a revisit (cycle guard) and the root's `root_type` otherwise.  The
Python recursion terminates because every recursive call adds the current id
to `seen` and only recurses on ids of the business that are not yet in `seen`.
We embed the walk as `walkF`, structurally recursive on a fuel argument, and
define `walkRoot` with the fuel `unseenCount + 1` that the termination
argument of the source provides; `walkF_congr` below proves that any fuel
above `unseenCount` gives the same answer, i.e. that the iteration has
stabilised (the termination property of the source walk).  The memoisation
cache of the source is dropped: it is write-once per resolved id and only
short-circuits recomputation.
-/

/-- Number of account ids of `m` that are not yet in `seen`: the termination
measure of the source walk. -/
def unseenCount (m : List Accnt) (seen : List ℕ) : ℕ :=
  (((m.map (fun a => a.id)).dedup).filter (fun i => decide (i ∉ seen))).length

/-- Fueled parent-chain walk of `_resolve_root_types.walk`: `none` on a
revisited id, a missing id, or exhausted fuel; otherwise the stored
`root_type` of the null-parent account the chain reaches. -/
def walkF (m : List Accnt) : ℕ → List ℕ → ℕ → Option RootT
  | 0, _, _ => none
  | fuel + 1, seen, aid =>
    if aid ∈ seen then none
    else
      match m.find? (fun a => a.id == aid) with
      | none => none
      | some a =>
        match a.parentId with
        | none => a.rootType
        | some pid => walkF m fuel (aid :: seen) pid

/-- The walk of `_resolve_root_types` for one account id, with the fuel that
the termination argument of the source provides. -/
def walkRoot (m : List Accnt) (seen : List ℕ) (aid : ℕ) : Option RootT :=
  walkF m (unseenCount m seen + 1) seen aid

/-- A rooted parent chain: `Chain m aid p rt` says that following parent links
from account id `aid` visits exactly the ids `p` (starting at `aid`) and ends
at an account with no parent whose stored `root_type` is `rt`. -/
inductive Chain (m : List Accnt) : ℕ → List ℕ → Option RootT → Prop where
  | root {aid : ℕ} {a : Accnt} :
      m.find? (fun x => x.id == aid) = some a → a.parentId = none →
      Chain m aid [aid] a.rootType
  | step {aid pid : ℕ} {a : Accnt} {p : List ℕ} {rt : Option RootT} :
      m.find? (fun x => x.id == aid) = some a → a.parentId = some pid →
      Chain m pid p rt → Chain m aid (aid :: p) rt

/-- A partial parent path: `PathTo m aid p b` says that following parent links
from `aid` through the ids `p` (starting at `aid`, `b` excluded) arrives
at id `b`. -/
inductive PathTo (m : List Accnt) : ℕ → List ℕ → ℕ → Prop where
  | nil {aid : ℕ} : PathTo m aid [] aid
  | cons {aid pid b : ℕ} {a : Accnt} {p : List ℕ} :
      m.find? (fun x => x.id == aid) = some a → a.parentId = some pid →
      PathTo m pid p b → PathTo m aid (aid :: p) b

/-!
## Voucher posting (`ledger/models.py`, `Voucher`)
-/

/-- `Voucher._totals`: aggregate debit and credit over the voucher lines. -/
def vTotals (v : Vchr) : ℤ × ℤ :=
  ((v.lines.map (fun l => l.debit)).sum, (v.lines.map (fun l => l.credit)).sum)

/-- Whether the referenced account of a line is a group (`account.is_group`,
via the foreign key; a dangling reference cannot occur under the schema and is
treated as not-a-group). -/
def accIsGroupB (st : BizState) (aid : ℕ) : Bool :=
  match findAcc st aid with
  | some a => a.isGroup
  | none => false

/-- `Voucher.validate_balanced`: at least two lines, aggregate debit equals
aggregate credit exactly, and no line posts to a group account.  Returns the
message of the `ValidationError` raised, or `none` when valid. -/
def validate_balanced (st : BizState) (v : Vchr) : Option String :=
  if v.lines.length < 2 then some "Voucher must have at least two lines."
  else if (vTotals v).1 != (vTotals v).2 then some "Voucher not balanced"
  else if v.lines.any (fun l => accIsGroupB st l.accountId) then
    some "Cannot post to a Group. Post only to Ledger accounts."
  else none

/-- `Voucher.post` under `transaction.atomic`: idempotent early return when
already posted; otherwise validate and lock.  The result pairs the raised
`ValidationError` (if any) with the persisted voucher row: on an error the
transaction rolls back, so the row is returned unchanged. -/
def Vchr.post (st : BizState) (now : ℤ) (user : Option ℕ) (v : Vchr) :
    Option String × Vchr :=
  if v.isPosted then (none, v)
  else
    match validate_balanced st v with
    | some e => (some e, v)
    | none => (none, { v with isPosted := true, postedAt := some now, postedBy := user })

/-!
## Account save validation (`ledger/models.py`, `Account.clean` / `Account.save`)

`Account.save` first computes `is_root`, then runs `full_clean` (which calls
`clean`), and only persists when no `ValidationError` was raised.  The embedding
takes the parent row (if any) and the previously stored `is_root` flag (for an
altered, already persisted row; `none` for a fresh one) and returns either the
error message or the row as persisted.
-/

def account_clean_save (oldIsRoot : Option Bool) (parent : Option Accnt)
    (a : Accnt) : Except String Accnt :=
  let a0 := { a with isRoot := parent.isNone && a.isGroup }
  let cleaned : Except String Accnt :=
    match parent with
    | none =>
      if a0.isGroup then
        match a0.rootType with
        | none => .error "Root accounts must have a Nature of Group."
        | some rt => .ok { a0 with reportType := report_type_from_root rt }
      else if !a0.isPrimaryLedger then
        .error "Root account must be a Group, unless it is a primary ledger."
      else .ok { a0 with reportType := .PL }
    | some p =>
      if !p.isGroup then .error "Parent must be a Group account."
      else if p.businessId != a0.businessId then
        .error "Parent must be in the same business."
      else .ok { a0 with rootType := p.rootType, reportType := p.reportType }
  match cleaned with
  | .error e => .error e
  | .ok b =>
    match oldIsRoot with
    | some true => .error "Root accounts cannot be altered."
    | _ => .ok b

/-!
## Stock ledger helpers and inventory voucher views (`inventory/views.py`)
-/

/-- `_entry_amount`: `abs(qty_in - qty_out) * rate`, rounded to 2 decimals. -/
def _entry_amount (qtyIn qtyOut rate : ℤ) : ℤ :=
  mulQtyRate |qtyIn - qtyOut| rate

/-- `_stock_balance`: current stock of an item, `sum(qty_in) - sum(qty_out)`
over posted entries, optionally scoped to one godown. -/
def _stock_balance (entries : List SLE) (itemId : ℕ) (godownId : Option ℕ) : ℤ :=
  let qs := entries.filter (fun e => e.isPosted && e.itemId == itemId &&
    (match godownId with
     | none => true
     | some g => e.godownId == g))
  ((qs.map (fun e => e.qtyIn)).sum) - ((qs.map (fun e => e.qtyOut)).sum)

/-- One item row of a sales (or purchase) voucher form, after form cleaning. -/
structure SalesRow where
  itemId : ℕ
  qty : ℤ
  rate : ℤ
deriving DecidableEq, Repr

/-- `stock_journal`: transfer a quantity of an item from one godown to another.
The source checks the posted balance of the source godown first and, inside
one atomic transaction, creates the two stock ledger entries (out at the
source, in at the destination) or nothing at all. -/
def stock_journal (bid : ℕ) (entries : List SLE) (itemId fromG toG : ℕ)
    (qty rate : ℤ) (postingDate : ℤ) : Except String (List SLE) :=
  let balance := _stock_balance entries itemId (some fromG)
  if balance < qty then .error "Insufficient stock in source godown."
  else
    let amount := _entry_amount 0 qty rate
    .ok (entries ++
      [ { businessId := bid, itemId := itemId, godownId := fromG,
          postingDate := postingDate, qtyIn := 0, qtyOut := qty, rate := rate,
          amount := amount, voucherType := "STOCK_JOURNAL", voucherId := none,
          isPosted := true },
        { businessId := bid, itemId := itemId, godownId := toG,
          postingDate := postingDate, qtyIn := qty, qtyOut := 0, rate := rate,
          amount := amount, voucherType := "STOCK_JOURNAL", voucherId := none,
          isPosted := true } ])

/-- `sales_voucher`: party Dr / sales Cr accounting voucher plus one stock-out
entry per item row.  Mirrors the source: rows without a positive quantity are
dropped; each remaining row is checked against the posted balance of the
selected godown (each row against the same pre-transaction balance); on any
error nothing is persisted; otherwise voucher, lines and entries are created
and the voucher is posted inside one atomic transaction. -/
def sales_voucher (st : BizState) (bid party salesLedger godown : ℕ)
    (rowsIn : List SalesRow) (d : ℤ) (narr : String) (vid vnum : ℕ)
    (now : ℤ) (user : Option ℕ) : Except (List String) (Vchr × List SLE) :=
  let rows := rowsIn.filter (fun r => decide (0 < r.qty))
  if rows.isEmpty then .error ["Add at least one item row with qty > 0."]
  else
    let errors := rows.filterMap (fun r =>
      if _stock_balance st.entries r.itemId (some godown) < r.qty then
        some "insufficient stock" else none)
    if !errors.isEmpty then .error errors
    else
      let total := (rows.map (fun r => mulQtyRate r.qty r.rate)).sum
      let v : Vchr :=
        { id := vid, number := vnum, voucherType := "SALES",
          postingDate := d, narration := narr, isPosted := false,
          postedAt := none, postedBy := none,
          lines := [ { accountId := party, debit := total, credit := 0 },
                     { accountId := salesLedger, debit := 0, credit := total } ] }
      let newEntries := st.entries ++ rows.map (fun r =>
        ({ businessId := bid, itemId := r.itemId, godownId := godown,
           postingDate := d, qtyIn := 0, qtyOut := r.qty, rate := r.rate,
           amount := _entry_amount 0 r.qty r.rate, voucherType := "SALES",
           voucherId := some vid, isPosted := true } : SLE))
      match Vchr.post st now user v with
      | (some e, _) => .error [e]
      | (none, v2) => .ok (v2, newEntries)

/-!
## Stock valuation (`ledger/services/stock_valuation.py`)
-/

/-- Posted entries dated on or before the cutoff, optionally scoped to one
godown (the queryset of `closing_stock_value`). -/
def entriesUpTo (st : BizState) (asOf : ℤ) (godown : Option ℕ) : List SLE :=
  st.entries.filter (fun e => e.isPosted && decide (e.postingDate ≤ asOf) &&
    (match godown with
     | none => true
     | some g => e.godownId == g))

/-- The distinct item ids of a list of entries (`list(set(...))` of the
source; the arbitrary set order is embedded as first-occurrence order, which
is irrelevant to the total, a sum). -/
def itemIdsOf (l : List SLE) : List ℕ :=
  (l.map (fun e => e.itemId)).dedup

/-- The per-item body of the `closing_stock_value` loop: zero when the closing
quantity is not positive or there are no receipts; otherwise closing quantity
times the average receipt rate, quantized to 2 decimals per item. -/
def itemClosingValue (l : List SLE) (itemId : ℕ) : ℤ :=
  let ie := l.filter (fun e => e.itemId == itemId)
  let qtyInSum := (ie.map (fun e => e.qtyIn)).sum
  let qtyOutSum := (ie.map (fun e => e.qtyOut)).sum
  let closingQty := qtyInSum - qtyOutSum
  if closingQty ≤ 0 then 0
  else
    let inEntries := ie.filter (fun e => decide (0 < e.qtyIn))
    let costIn := (inEntries.map (fun e => e.amount)).sum
    let qtyInTotal := (inEntries.map (fun e => e.qtyIn)).sum
    if 0 < qtyInTotal then rheDiv (closingQty * costIn) qtyInTotal else 0

/-- `closing_stock_value`: total inventory value as of a date (0 when the
date is `None`).  Per item the source computes
`(closing_qty * (cost_in / qty_in_total)).quantize(Decimal("0.01"))`; with
`closing_qty` and `qty_in_total` in thousandths and `cost_in` in cents this
is `closing_qty * cost_in / qty_in_total` cents, rounded half-even, i.e.
`rheDiv` above. -/
def closing_stock_value (st : BizState) (asOf : Option ℤ) (godown : Option ℕ) : ℤ :=
  match asOf with
  | none => 0
  | some d =>
    let es := entriesUpTo st d godown
    ((itemIdsOf es).map (fun i => itemClosingValue es i)).sum

/-- `opening_stock_value`: closing stock as of the day before the period
start; 0 when no period start is given. -/
def opening_stock_value (st : BizState) (periodStart : Option ℤ) (godown : Option ℕ) : ℤ :=
  match periodStart with
  | none => 0
  | some d => closing_stock_value st (some (d - 1)) godown

/-- Stated from the specification text of the per-item closing-stock formula
(for comparison against `itemClosingValue`, which is translated from the
source): an item contributes 0 if its closing quantity is at most 0 or it has
no receipt entries with positive `qty_in`; otherwise the rounded product of
closing quantity and average receipt rate. -/
def specItemContribution (l : List SLE) (itemId : ℕ) : ℤ :=
  let ie := l.filter (fun e => e.itemId == itemId)
  let closingQty := (ie.map (fun e => e.qtyIn)).sum - (ie.map (fun e => e.qtyOut)).sum
  let receipts := ie.filter (fun e => decide (0 < e.qtyIn))
  if closingQty ≤ 0 then 0
  else if receipts.isEmpty then 0
  else rheDiv (closingQty * (receipts.map (fun e => e.amount)).sum)
    ((receipts.map (fun e => e.qtyIn)).sum)

/-!
## Profit and Loss (`ledger/services/pnl.py`, `compute_profit_and_loss`)
-/

/-- ASCII lowercase of one character (the effect of Python `str.lower` on the
ASCII account names of the source). -/
def lowerChar (c : Char) : Char :=
  if 'A' ≤ c ∧ c ≤ 'Z' then Char.ofNat (c.toNat + 32) else c

/-- Python `str.lower` on a name. -/
def strLower (s : String) : String := ⟨s.data.map lowerChar⟩

/-- Python `str.strip` on a name. -/
def strTrim (s : String) : String :=
  ⟨((s.data.dropWhile Char.isWhitespace).reverse.dropWhile
      Char.isWhitespace).reverse⟩

/-- Prefix comparison of character lists (helper for the substring test of the
Python `in` operator on names). -/
def leadEq : List Char → List Char → Bool
  | [], _ => true
  | _ :: _, [] => false
  | a :: as, b :: bs => a == b && leadEq as bs

/-- Substring test on character lists: does `pat` occur contiguously? -/
def hasSubList (pat : List Char) : List Char → Bool
  | [] => pat.isEmpty
  | c :: rest => leadEq pat (c :: rest) || hasSubList pat rest

/-- `pat in s` of Python, on strings. -/
def strHasSub (s pat : String) : Bool :=
  hasSubList pat.toList s.toList

/-- `any(h in name_lower for h in hints)`. -/
def anyHint (nameLower : String) (hints : List String) : Bool :=
  hints.any (fun h => strHasSub nameLower h)

/-- `_INCOME_NAME_HINTS`. -/
def incomeNameHints : List String := ["sales", "revenue", "income"]

/-- `_EXPENSE_NAME_HINTS`. -/
def expenseNameHints : List String :=
  ["purchase", "rent", "salary", "electricity", "wages", "expense"]

/-- `_SALES_NAME_HINTS`. -/
def salesNameHints : List String := ["sales"]

/-- `_PURCHASE_NAME_HINTS`. -/
def purchaseNameHints : List String := ["purchase"]

/-- The voucher-level filter of the P&L queryset: posted, and inside the
optional date window. -/
def pnlVoucherInWindow (sd ed : Option ℤ) (v : Vchr) : Bool :=
  v.isPosted &&
    (match sd with
     | none => true
     | some d => decide (d ≤ v.postingDate)) &&
    (match ed with
     | none => true
     | some d => decide (v.postingDate ≤ d))

/-- The `VoucherLine` rows of the P&L queryset: lines of posted vouchers in
the window whose account is not a group. -/
def pnlLines (st : BizState) (sd ed : Option ℤ) : List VLine :=
  ((st.vouchers.filter (pnlVoucherInWindow sd ed)).flatMap (fun v => v.lines)).filter
    (fun l => !accIsGroupB st l.accountId)

/-- The `GROUP BY account` keys of the P&L queryset. -/
def pnlAccountIds (st : BizState) (sd ed : Option ℤ) : List ℕ :=
  ((pnlLines st sd ed).map (fun l => l.accountId)).dedup

/-- Aggregated debit of one account row. -/
def pnlRowDr (st : BizState) (sd ed : Option ℤ) (aid : ℕ) : ℤ :=
  (((pnlLines st sd ed).filter (fun l => l.accountId == aid)).map
    (fun l => l.debit)).sum

/-- Aggregated credit of one account row. -/
def pnlRowCr (st : BizState) (sd ed : Option ℤ) (aid : ℕ) : ℤ :=
  (((pnlLines st sd ed).filter (fun l => l.accountId == aid)).map
    (fun l => l.credit)).sum

/-- The display name of an account row (`(name or "").strip() or "?"`). -/
def pnlRowName (st : BizState) (aid : ℕ) : String :=
  let nm := strTrim (((findAcc st aid).map (fun a => a.name)).getD "")
  if nm = "" then "?" else nm

/-- The root-type classification of one P&L row, mirroring the source order:
the stored `root_type` when it is INCOME/EXPENSE, else the parent row's stored
`root_type` when it is INCOME/EXPENSE, else the parent-chain walk; and when
that still is not INCOME/EXPENSE, the name-substring hints. -/
def pnlRowClass (st : BizState) (aid : ℕ) : Option RootT :=
  let acc := findAcc st aid
  let rtAcc : Option RootT := acc.bind (fun a => a.rootType)
  let rtParent : Option RootT :=
    (acc.bind (fun a => a.parentId)).bind
      (fun pid => (findAcc st pid).bind (fun p => p.rootType))
  let rtWalk := walkRoot st.accounts [] aid
  let rt0 :=
    if rtAcc = some .INCOME ∨ rtAcc = some .EXPENSE then rtAcc
    else if rtParent = some .INCOME ∨ rtParent = some .EXPENSE then rtParent
    else rtWalk
  let nameLower := strLower (pnlRowName st aid)
  if rt0 = some .INCOME ∨ rt0 = some .EXPENSE then rt0
  else if anyHint nameLower incomeNameHints then some .INCOME
  else if anyHint nameLower expenseNameHints then some .EXPENSE
  else rt0

/-- The four P&L buckets. -/
inductive Bucket where
  | sales
  | purchases
  | otherIncome
  | indirectExpense
deriving DecidableEq, Repr

/-- The bucket, display name and signed amount that one account row
contributes, or `none` when the row is skipped (not INCOME/EXPENSE, or zero
amount). -/
def pnlRowBucket (st : BizState) (sd ed : Option ℤ) (aid : ℕ) :
    Option (Bucket × String × ℤ) :=
  let name := pnlRowName st aid
  let nameLower := strLower name
  let dr := pnlRowDr st sd ed aid
  let cr := pnlRowCr st sd ed aid
  match pnlRowClass st aid with
  | some .INCOME =>
    let amt := cr - dr
    if amt = 0 then none
    else if anyHint nameLower salesNameHints then some (.sales, name, amt)
    else some (.otherIncome, name, amt)
  | some .EXPENSE =>
    let amt := dr - cr
    if amt = 0 then none
    else if anyHint nameLower purchaseNameHints then some (.purchases, name, amt)
    else some (.indirectExpense, name, amt)
  | _ => none

/-- One P&L bucket as a list of `(account name, amount)` rows (ordering by
account name omitted: only the sums matter below). -/
def pnlBucket (st : BizState) (sd ed : Option ℤ) (b : Bucket) :
    List (String × ℤ) :=
  (pnlAccountIds st sd ed).filterMap (fun aid =>
    match pnlRowBucket st sd ed aid with
    | some (b2, nm, amt) => if b2 = b then some (nm, amt) else none
    | none => none)

/-- The result record of `compute_profit_and_loss` (the legacy aliases
`income`, `expense`, `balance_total`, which are concatenations or copies of
the fields below, are omitted). -/
structure PnlResult where
  sales : List (String × ℤ)
  purchases : List (String × ℤ)
  other_income : List (String × ℤ)
  indirect_expense : List (String × ℤ)
  sales_total : ℤ
  purchase_total : ℤ
  other_income_total : ℤ
  indirect_expense_total : ℤ
  opening_stock_value : ℤ
  closing_stock_value : ℤ
  cogs : ℤ
  gross_profit : ℤ
  net_profit : ℤ
  total_income : ℤ
  total_expense : ℤ
  total_debit : ℤ
  total_credit : ℤ
deriving DecidableEq, Repr

/-- `compute_profit_and_loss`. -/
def compute_profit_and_loss (st : BizState) (sd ed : Option ℤ)
    (godown : Option ℕ) (openingOverride closingOverride : Option ℤ) :
    PnlResult :=
  let sales := pnlBucket st sd ed .sales
  let purchases := pnlBucket st sd ed .purchases
  let otherIncome := pnlBucket st sd ed .otherIncome
  let indirectExpense := pnlBucket st sd ed .indirectExpense
  let salesTotal := (sales.map (fun r => r.2)).sum
  let purchaseTotal := (purchases.map (fun r => r.2)).sum
  let otherIncomeTotal := (otherIncome.map (fun r => r.2)).sum
  let indirectExpenseTotal := (indirectExpense.map (fun r => r.2)).sum
  let periodEnd := match ed with | some d => d | none => st.today
  let openingStock :=
    match openingOverride with
    | some x => quantize2 x
    | none => opening_stock_value st sd godown
  let closingStock :=
    match closingOverride with
    | some x => quantize2 x
    | none => closing_stock_value st (some periodEnd) godown
  let cogs := quantize2 (openingStock + purchaseTotal - closingStock)
  let grossProfit := quantize2 (salesTotal - cogs)
  let netProfit := quantize2 (grossProfit - indirectExpenseTotal + otherIncomeTotal)
  let totalCredit := quantize2 (salesTotal + closingStock)
  let totalDebit :=
    quantize2 (openingStock + purchaseTotal + indirectExpenseTotal + netProfit)
  { sales := sales, purchases := purchases, other_income := otherIncome,
    indirect_expense := indirectExpense,
    sales_total := salesTotal, purchase_total := purchaseTotal,
    other_income_total := otherIncomeTotal,
    indirect_expense_total := indirectExpenseTotal,
    opening_stock_value := openingStock, closing_stock_value := closingStock,
    cogs := cogs, gross_profit := grossProfit, net_profit := netProfit,
    total_income := salesTotal + otherIncomeTotal,
    total_expense := purchaseTotal + indirectExpenseTotal,
    total_debit := totalDebit, total_credit := totalCredit }

/-!
## Balance sheet (`ledger/services/balance_sheet.py`, `compute_balance_sheet`)
-/

/-- `STANDARD_ROOT_NAMES`. -/
def standardRootNames : List String := ["Assets", "Liabilities", "Income", "Expenses"]

/-- Signed opening balance of an account: DR positive, CR negative. -/
def openingNet (a : Accnt) : ℤ :=
  if a.openingBalanceCr then -a.openingBalance else a.openingBalance

/-- The voucher-level filter of `_ledger_closing_balances`: posted and dated
on or before the optional end date. -/
def bsVoucherInWindow (ed : Option ℤ) (v : Vchr) : Bool :=
  v.isPosted &&
    (match ed with
     | none => true
     | some d => decide (v.postingDate ≤ d))

/-- `_ledger_closing_balances` for one ledger id: signed opening balance plus
aggregate debit minus aggregate credit over posted lines up to the end date,
quantized. -/
def ledgerClosingNet (st : BizState) (ed : Option ℤ) (aid : ℕ) : ℤ :=
  let ls := ((st.vouchers.filter (bsVoucherInWindow ed)).flatMap
    (fun v => v.lines)).filter (fun l => l.accountId == aid)
  let dr := (ls.map (fun l => l.debit)).sum
  let cr := (ls.map (fun l => l.credit)).sum
  let opNet :=
    match findAcc st aid with
    | some a => openingNet a
    | none => 0
  quantize2 (opNet + dr - cr)

/-- The ids of the child accounts of a parent id (the `children_map`). -/
def childIdsOf (st : BizState) (pid : Option ℕ) : List ℕ :=
  (st.accounts.filter (fun a => a.parentId == pid)).map (fun a => a.id)

/-- Fueled version of `_descendant_ledger_ids`: ledger ids below a group.
The source recursion is over the children map, a forest when reached from the
null-parent roots (every account has a single parent reference), so its depth
is bounded by the number of accounts; the fuel makes that bound explicit. -/
def descLedgers (st : BizState) : ℕ → ℕ → List ℕ
  | 0, _ => []
  | fuel + 1, gid =>
    (childIdsOf st (some gid)).flatMap (fun cid =>
      match findAcc st cid with
      | none => []
      | some a => if a.isGroup then descLedgers st fuel cid else [cid])

/-- `_descendant_ledger_ids` with the depth bound of the account forest. -/
def _descendant_ledger_ids (st : BizState) (gid : ℕ) : List ℕ :=
  descLedgers st (st.accounts.length + 1) gid

/-- The root account ids (`children_map.get(None, [])`). -/
def bsRootIds (st : BizState) : List ℕ := childIdsOf st none

/-- Root ids of one root type. -/
def rootIdsOfType (st : BizState) (rt : RootT) : List ℕ :=
  (bsRootIds st).filter (fun aid =>
    match findAcc st aid with
    | some a => a.rootType == some rt
    | none => false)

/-- Root ids of one root type whose name is not a standard root name
(preferred non-standard primary groups). -/
def primaryRootIdsOfType (st : BizState) (rt : RootT) : List ℕ :=
  (bsRootIds st).filter (fun aid =>
    match findAcc st aid with
    | some a => a.rootType == some rt && !(standardRootNames.contains a.name)
    | none => false)

/-- `liability_root_ids` with the fallback to standard roots. -/
def liabilityRootIds (st : BizState) : List ℕ :=
  let pri := primaryRootIdsOfType st .LIABILITY
  if pri.isEmpty then rootIdsOfType st .LIABILITY else pri

/-- `asset_root_ids` with the fallback to standard roots. -/
def assetRootIds (st : BizState) : List ℕ :=
  let pri := primaryRootIdsOfType st .ASSET
  if pri.isEmpty then rootIdsOfType st .ASSET else pri

/-- Sum of the closing nets of the descendant ledgers of one root group. -/
def bsRootNet (st : BizState) (ed : Option ℤ) (rid : ℕ) : ℤ :=
  ((_descendant_ledger_ids st rid).map (ledgerClosingNet st ed)).sum

/-- `group_balances`: one `(name, quantized signed total)` row per existing
root group id (ordering by name omitted: only the sums matter below). -/
def group_balances (st : BizState) (ed : Option ℤ) (rids : List ℕ)
    (sign : ℤ) : List (String × ℤ) :=
  rids.filterMap (fun rid =>
    match findAcc st rid with
    | none => none
    | some a =>
      if !a.isGroup then none
      else some (a.name, quantize2 (sign * bsRootNet st ed rid)))

/-- The result record of `compute_balance_sheet`. -/
structure BsResult where
  liability_rows : List (String × ℤ)
  asset_rows : List (String × ℤ)
  gross_profit : ℤ
  total_liabilities : ℤ
  total_assets : ℤ
deriving DecidableEq, Repr

/-- `compute_balance_sheet`. -/
def compute_balance_sheet (st : BizState) (ed : Option ℤ) : BsResult :=
  let liabilityRows := group_balances st ed (liabilityRootIds st) (-1)
  let assetRows := group_balances st ed (assetRootIds st) 1
  let pnl := compute_profit_and_loss st none ed none none none
  let grossProfit := quantize2 pnl.gross_profit
  let totalLiabilities := quantize2 ((liabilityRows.map (fun r => r.2)).sum + grossProfit)
  let totalAssets := quantize2 ((assetRows.map (fun r => r.2)).sum)
  { liability_rows := liabilityRows, asset_rows := assetRows,
    gross_profit := grossProfit, total_liabilities := totalLiabilities,
    total_assets := totalAssets }

/-- Sum over the asset root groups of their descendant-ledger closing nets
(the un-quantized, un-signed content of the asset side). -/
def assetNetSum (st : BizState) (ed : Option ℤ) : ℤ :=
  ((assetRootIds st).filterMap (fun rid =>
    match findAcc st rid with
    | none => none
    | some a => if !a.isGroup then none else some (bsRootNet st ed rid))).sum

/-- Sum over the liability root groups of their descendant-ledger closing
nets. -/
def liabilityNetSum (st : BizState) (ed : Option ℤ) : ℤ :=
  ((liabilityRootIds st).filterMap (fun rid =>
    match findAcc st rid with
    | none => none
    | some a => if !a.isGroup then none else some (bsRootNet st ed rid))).sum

/-!
## Concrete example data

Small states used to evaluate the embedded operations at specific inputs.
Account rows are written positionally:
id, parentId, businessId, name, isGroup, rootType, reportType,
isPrimaryLedger, isRoot, openingBalance, openingBalanceCr.
-/

/-- Business with an Income root, an Interest ledger under it, an Assets root
and a Cash ledger, and one posted receipt voucher Dr Cash 10.00 / Cr Interest
10.00 (an other-income posting: "interest" carries no sales hint). -/
def stC1 : BizState :=
  { accounts :=
      [ ⟨1, none, 1, "Income", true, some .INCOME, .PL, false, true, 0, false⟩,
        ⟨2, some 1, 1, "Interest", false, some .INCOME, .PL, false, false, 0, false⟩,
        ⟨3, none, 1, "Assets", true, some .ASSET, .BS, false, true, 0, false⟩,
        ⟨4, some 3, 1, "Cash", false, some .ASSET, .BS, false, false, 0, false⟩ ],
    vouchers :=
      [ ⟨1, 1, "RECEIPT", 0, "", true, some 0, none,
          [⟨4, 1000, 0⟩, ⟨2, 0, 1000⟩]⟩ ],
    entries := [],
    today := 0 }

/-- The P&L of `stC1` over the full history. -/
def pnlC1 : PnlResult := compute_profit_and_loss stC1 none none none none none

/-- Business for the sales-voucher scenario: a customer ledger, a sales
ledger, and one posted purchase entry of 6 units of item 1 in godown 1. -/
def stC2 : BizState :=
  { accounts :=
      [ ⟨10, none, 1, "Customer", false, none, .BS, true, false, 0, false⟩,
        ⟨11, none, 1, "Sale Ledger", false, none, .PL, true, false, 0, false⟩ ],
    vouchers := [],
    entries :=
      [ ⟨1, 1, 1, 0, 6000, 0, 500, 3000, "PURCHASE", none, true⟩ ],
    today := 0 }

/-- A sales voucher over `stC2` with two rows of item 1, qty 4 each
(each row alone within the balance of 6, together exceeding it). -/
def salesResC2 : Except (List String) (Vchr × List SLE) :=
  sales_voucher stC2 1 10 11 1 [⟨1, 4000, 700⟩, ⟨1, 4000, 700⟩] 0 "" 100 1 0 none

/-- Business with a fully posted, balanced ledger: Assets and Expenses roots,
Cash under Assets, Rent under Expenses, and one posted payment voucher
Dr Rent 10.00 / Cr Cash 10.00.  No stock entries, no opening balances. -/
def stC3 : BizState :=
  { accounts :=
      [ ⟨1, none, 1, "Assets", true, some .ASSET, .BS, false, true, 0, false⟩,
        ⟨2, none, 1, "Expenses", true, some .EXPENSE, .PL, false, true, 0, false⟩,
        ⟨3, some 1, 1, "Cash", false, some .ASSET, .BS, false, false, 0, false⟩,
        ⟨4, some 2, 1, "Rent", false, some .EXPENSE, .PL, false, false, 0, false⟩ ],
    vouchers :=
      [ ⟨1, 1, "PAYMENT", 0, "", true, some 0, none,
          [⟨4, 1000, 0⟩, ⟨3, 0, 1000⟩]⟩ ],
    entries := [],
    today := 0 }

/-- The balance sheet of `stC3` with no end date. -/
def bsC3 : BsResult := compute_balance_sheet stC3 none

/-- Business with two postable ledgers (for voucher posting examples). -/
def stC4 : BizState :=
  { accounts :=
      [ ⟨1, none, 1, "Cash Ledger", false, none, .BS, true, false, 0, false⟩,
        ⟨2, none, 1, "Bank Ledger", false, none, .BS, true, false, 0, false⟩ ],
    vouchers := [], entries := [], today := 0 }

/-- Scenario D draft voucher: Dr 50.00 / Cr 40.00, unbalanced. -/
def vC4 : Vchr :=
  ⟨7, 7, "JOURNAL", 0, "", false, none, none, [⟨1, 5000, 0⟩, ⟨2, 0, 4000⟩]⟩

/-- An already posted voucher (even unbalanced: posting it again must not
re-validate). -/
def vC5 : Vchr :=
  ⟨8, 8, "JOURNAL", 0, "", true, some 5, some 9, [⟨1, 5000, 0⟩, ⟨2, 0, 4000⟩]⟩

/-- Scenario B after the purchase only: 10 units of item 1 received at rate
5.00 (amount 50.00). -/
def stC6a : BizState :=
  { accounts := [], vouchers := [],
    entries := [ ⟨1, 1, 1, 0, 10000, 0, 500, 5000, "PURCHASE", none, true⟩ ],
    today := 0 }

/-- Scenario B after the purchase and the sale of 4 units at rate 7.00. -/
def stC6b : BizState :=
  { accounts := [], vouchers := [],
    entries :=
      [ ⟨1, 1, 1, 0, 10000, 0, 500, 5000, "PURCHASE", none, true⟩,
        ⟨1, 1, 1, 0, 0, 4000, 700, 2800, "SALES", none, true⟩ ],
    today := 0 }

/-- A parent group row (LIABILITY / Balance Sheet). -/
def pC8 : Accnt :=
  ⟨20, none, 1, "Loans", true, some .LIABILITY, .BS, false, true, 0, false⟩

/-- A child row submitted with a conflicting `root_type` (ASSET): the parent
must override it. -/
def aC8 : Accnt :=
  ⟨21, some 20, 1, "Bank Loan", false, some .ASSET, .BS, false, false, 0, false⟩

/-- The persisted child row. -/
def bC8 : Accnt :=
  (account_clean_save none (some pC8) aC8).toOption.getD aC8

/-- A root group submitted without a `root_type`. -/
def rC8 : Accnt :=
  ⟨22, none, 1, "Misc", true, none, .BS, false, true, 0, false⟩

/-- An account whose parent is `accB` (half of a parent cycle). -/
def accA : Accnt := ⟨1, some 2, 1, "A", true, some .ASSET, .BS, false, false, 0, false⟩

/-- An account whose parent is `accA` (the other half of the cycle). -/
def accB : Accnt := ⟨2, some 1, 1, "B", true, some .ASSET, .BS, false, false, 0, false⟩

/-- Two accounts whose parent references form a cycle (1 -> 2 -> 1). -/
def mCyc : List Accnt := [accA, accB]

/-- A ledger under the root `accIncomeRoot`. -/
def accFees : Accnt := ⟨3, some 4, 1, "Fees", false, none, .PL, false, false, 0, false⟩

/-- A null-parent root group holding root type INCOME. -/
def accIncomeRoot : Accnt := ⟨4, none, 1, "Income", true, some .INCOME, .PL, false, true, 0, false⟩

/-- A two-account acyclic chain: 3 under the INCOME root 4. -/
def mChn : List Accnt := [accFees, accIncomeRoot]

/-- Business with 5 units of item 1 in godown 1 (for a stock transfer). -/
def stC10 : BizState :=
  { accounts := [], vouchers := [],
    entries := [ ⟨1, 1, 1, 0, 5000, 0, 400, 2000, "PURCHASE", none, true⟩ ],
    today := 0 }

/-- The entry list produced by transferring 3 units of item 1 from godown 1
to godown 2 over `stC10`. -/
def sjResC10 : List SLE :=
  (stock_journal 1 stC10.entries 1 1 2 3000 400 0).toOption.getD []

/-!
## Theorems

Everything above is definitional (the embedding and concrete example data);
everything below is proved about it.
-/

/-- Filtering with a pointwise-stronger predicate keeps at most as many
elements. -/
theorem length_filter_mono {α : Type} {p q : α → Bool}
    (h : ∀ x, p x = true → q x = true) (l : List α) :
    (l.filter p).length ≤ (l.filter q).length :=
  (List.monotone_filter_right l h).length_le

/-- Pushing a fresh, present id onto `seen` strictly shrinks the unseen part
of any list containing it. -/
theorem length_filter_cons_lt {l : List ℕ} {seen : List ℕ} {aid : ℕ}
    (h1 : aid ∈ l) (h2 : aid ∉ seen) :
    (l.filter (fun i => decide (i ∉ aid :: seen))).length
      < (l.filter (fun i => decide (i ∉ seen))).length := by
  have himp : ∀ x : ℕ, (decide (x ∉ aid :: seen)) = true → (decide (x ∉ seen)) = true := by
    intro x hx
    simp only [decide_eq_true_eq, List.mem_cons] at hx ⊢
    exact fun hmem => hx (Or.inr hmem)
  induction l with
  | nil => cases h1
  | cons b t ih =>
    by_cases hb : b = aid
    · subst hb
      have hnew : (decide (b ∉ b :: seen)) = false := by simp
      have hold : (decide (b ∉ seen)) = true := by simpa using h2
      rw [List.filter_cons_of_neg (by simp [hnew]), List.filter_cons_of_pos (by simp [hold])]
      exact Nat.lt_succ_of_le (length_filter_mono himp t)
    · rcases List.mem_cons.mp h1 with h | h
      · exact absurd h.symm hb
      · have hlt := ih h
        by_cases hbs : b ∈ seen
        · rw [List.filter_cons_of_neg (by simp [List.mem_cons]; exact fun _ => hbs),
            List.filter_cons_of_neg (by simpa using hbs)]
          exact hlt
        · rw [List.filter_cons_of_pos (by simp [List.mem_cons]; exact ⟨hb, hbs⟩),
            List.filter_cons_of_pos (by simpa using hbs)]
          simpa using Nat.succ_lt_succ hlt

/-- Visiting a present, unseen id strictly decreases the termination
measure of the walk. -/
theorem unseenCount_cons_lt {m : List Accnt} {seen : List ℕ} {aid : ℕ}
    (h1 : aid ∈ m.map (fun a => a.id)) (h2 : aid ∉ seen) :
    unseenCount m (aid :: seen) < unseenCount m seen :=
  length_filter_cons_lt (List.mem_dedup.mpr h1) h2

theorem find?_id_mem {m : List Accnt} {aid : ℕ} {a : Accnt}
    (h : m.find? (fun a => a.id == aid) = some a) :
    aid ∈ m.map (fun a => a.id) := by
  have hmem := List.mem_of_find?_eq_some h
  have hpred := List.find?_some h
  simp only [beq_iff_eq] at hpred
  exact List.mem_map.mpr ⟨a, hmem, hpred⟩

/-- Any fuel above the termination measure yields the same walk result: the
source recursion stabilises (terminates) within `unseenCount + 1` steps. -/
theorem walkF_congr (m : List Accnt) :
    ∀ fuel fuel' seen aid, unseenCount m seen < fuel →
      unseenCount m seen < fuel' →
      walkF m fuel seen aid = walkF m fuel' seen aid := by
  intro fuel
  induction fuel with
  | zero => intro fuel' seen aid h; omega
  | succ f ih =>
    intro fuel' seen aid h h'
    match fuel', h' with
    | f' + 1, h' =>
      show walkF m (f + 1) seen aid = walkF m (f' + 1) seen aid
      unfold walkF
      by_cases hs : aid ∈ seen
      · simp [hs]
      · simp only [hs, if_false]
        cases hfind : m.find? (fun a => a.id == aid) with
        | none => rfl
        | some a =>
          show (match a.parentId with
              | none => a.rootType
              | some pid => walkF m f (aid :: seen) pid)
            = (match a.parentId with
              | none => a.rootType
              | some pid => walkF m f' (aid :: seen) pid)
          cases hp : a.parentId with
          | none => rfl
          | some pid =>
            have hdec := unseenCount_cons_lt (find?_id_mem hfind) hs
            exact ih f' (aid :: seen) pid (by omega) (by omega)

/-- The error cases of `validate_balanced`, as a disjunction. -/
theorem validate_balanced_some_iff (st : BizState) (v : Vchr) :
    ((validate_balanced st v).isSome = true) ↔
      (v.lines.length < 2 ∨ (vTotals v).1 ≠ (vTotals v).2 ∨
        ∃ l ∈ v.lines, accIsGroupB st l.accountId = true) := by
  unfold validate_balanced
  by_cases h1 : v.lines.length < 2
  · simp [h1]
  · by_cases h2 : (vTotals v).1 = (vTotals v).2
    · by_cases h3 : v.lines.any (fun l => accIsGroupB st l.accountId) = true
      · simp [h1, h2, h3, ← List.any_eq_true]
      · simp [h1, h2, h3, ← List.any_eq_true]
    · simp [h1, h2]

/-- Claim C4: for a draft voucher, `post` raises a `ValidationError` exactly
when the voucher has fewer than two lines, or the debit and credit totals
differ, or some line references a group account; and whenever it raises, the
voucher row is returned unchanged (it stays in DRAFT). -/
theorem post_raises_iff_invalid_and_leaves_draft (st : BizState) (now : ℤ)
    (user : Option ℕ) (v : Vchr) (h : v.isPosted = false) :
    (((Vchr.post st now user v).1.isSome = true) ↔
      (v.lines.length < 2 ∨ (vTotals v).1 ≠ (vTotals v).2 ∨
        ∃ l ∈ v.lines, accIsGroupB st l.accountId = true))
    ∧ ((Vchr.post st now user v).1.isSome = true →
        (Vchr.post st now user v).2 = v) := by
  have hpost : Vchr.post st now user v =
      (match validate_balanced st v with
       | some e => (some e, v)
       | none =>
         (none, { v with isPosted := true, postedAt := some now, postedBy := user })) := by
    unfold Vchr.post
    rw [h]
    simp
  constructor
  · rw [← validate_balanced_some_iff st v]
    cases hval : validate_balanced st v <;> simp [hpost, hval]
  · intro hs
    cases hval : validate_balanced st v with
    | none => rw [hpost, hval] at hs; simp at hs
    | some e => rw [hpost, hval]

theorem post_raises_iff_invalid_and_leaves_draft_witness :
    ((Vchr.post stC4 0 none vC4).1.isSome = true)
    ∧ (Vchr.post stC4 0 none vC4).2 = vC4 := by
  have h := post_raises_iff_invalid_and_leaves_draft stC4 0 none vC4 rfl
  have hs : (Vchr.post stC4 0 none vC4).1.isSome = true :=
    h.1.mpr (Or.inr (Or.inl (by decide)))
  exact ⟨hs, h.2 hs⟩

/-- Claim C5: `post` on an already posted voucher returns successfully with
no error and no state change at all (and, because it returns before
`validate_balanced`, no validation is re-run). -/
theorem post_idempotent_on_posted (st : BizState) (now : ℤ) (user : Option ℕ)
    (v : Vchr) (h : v.isPosted = true) :
    Vchr.post st now user v = (none, v) := by
  unfold Vchr.post
  rw [h]
  simp

theorem post_idempotent_on_posted_witness :
    Vchr.post stC4 0 none vC5 = (none, vC5) :=
  post_idempotent_on_posted stC4 0 none vC5 rfl

/-- Claim C7: closing stock as of a date equals opening stock of the next
day, and opening stock with no period start is 0. -/
theorem closing_opening_stock_round_trip :
    (∀ (st : BizState) (d : ℤ) (g : Option ℕ),
      closing_stock_value st (some d) g = opening_stock_value st (some (d + 1)) g)
    ∧ (∀ (st : BizState) (g : Option ℕ), opening_stock_value st none g = 0) := by
  constructor
  · intro st d g
    show closing_stock_value st (some d) g = closing_stock_value st (some (d + 1 - 1)) g
    have hd : d + 1 - 1 = d := by ring
    rw [hd]
  · intro st g
    rfl

/-- Claim C8: a row saved with a parent always takes the parent's root and
report types (whatever the caller supplied); a root group without a root type
fails validation; and `report_type_from_root` sends INCOME/EXPENSE to Profit &
Loss and ASSET/LIABILITY to Balance Sheet. -/
theorem account_parent_root_type_inheritance :
    (∀ (oldIsRoot : Option Bool) (p a b : Accnt),
        account_clean_save oldIsRoot (some p) a = .ok b →
        b.rootType = p.rootType ∧ b.reportType = p.reportType)
    ∧ (∀ (oldIsRoot : Option Bool) (a : Accnt), a.isGroup = true →
        a.rootType = none → ∃ e, account_clean_save oldIsRoot none a = .error e)
    ∧ (report_type_from_root .INCOME = .PL ∧ report_type_from_root .EXPENSE = .PL ∧
        report_type_from_root .ASSET = .BS ∧ report_type_from_root .LIABILITY = .BS) := by
  refine ⟨?_, ?_, by decide⟩
  · intro oldIsRoot p a b hok
    unfold account_clean_save at hok
    by_cases hg : p.isGroup = true
    · by_cases hb : p.businessId = a.businessId
      · simp only [hg, hb, Bool.not_true, bne_self_eq_false] at hok
        cases oldIsRoot with
        | none =>
          simp only [] at hok
          cases hok
          constructor <;> rfl
        | some ob =>
          cases ob with
          | true => simp at hok
          | false =>
            simp only [] at hok
            cases hok
            constructor <;> rfl
      · simp only [hg] at hok
        have hbne : (p.businessId != { a with
            isRoot := (some p : Option Accnt).isNone && a.isGroup }.businessId) = true := by
          simpa [bne_iff_ne] using hb
        simp [hbne] at hok
    · simp only [Bool.not_eq_true] at hg
      simp [hg] at hok
  · intro oldIsRoot a hg hrt
    refine ⟨"Root accounts must have a Nature of Group.", ?_⟩
    unfold account_clean_save
    simp [hg, hrt]

theorem account_parent_root_type_inheritance_witness :
    (bC8.rootType = pC8.rootType ∧ bC8.reportType = pC8.reportType)
    ∧ (∃ e, account_clean_save none none rC8 = .error e) :=
  ⟨account_parent_root_type_inheritance.1 none pC8 aC8 bC8 rfl,
   account_parent_root_type_inheritance.2.1 none rC8 rfl rfl⟩

/-- The per-item loop body of `closing_stock_value` agrees with the per-item
formula stated in the specification: the only difference in shape, guarding
by `0 < Σ qty_in over receipts` (source) versus by the existence of a receipt
(specification), is immaterial since receipt entries have positive `qty_in`. -/
theorem itemClosingValue_eq_spec (l : List SLE) (itemId : ℕ) :
    itemClosingValue l itemId = specItemContribution l itemId := by
  unfold itemClosingValue specItemContribution
  by_cases hc : ((l.filter (fun e => e.itemId == itemId)).map (fun e => e.qtyIn)).sum -
      ((l.filter (fun e => e.itemId == itemId)).map (fun e => e.qtyOut)).sum ≤ 0
  · simp only [hc, if_true]
  · simp only [hc, if_false]
    by_cases hemp :
        ((l.filter (fun e => e.itemId == itemId)).filter
          (fun e => decide (0 < e.qtyIn))).isEmpty = true
    · have hnil : (l.filter (fun e => e.itemId == itemId)).filter
          (fun e => decide (0 < e.qtyIn)) = [] := by
        simpa [List.isEmpty_iff] using hemp
      simp [hemp, hnil]
    · have hne : (l.filter (fun e => e.itemId == itemId)).filter
          (fun e => decide (0 < e.qtyIn)) ≠ [] := by
        simpa [List.isEmpty_iff] using hemp
      have hpos : 0 < (((l.filter (fun e => e.itemId == itemId)).filter
          (fun e => decide (0 < e.qtyIn))).map (fun e => e.qtyIn)).sum := by
        apply List.sum_pos
        · intro x hx
          obtain ⟨e, he, rfl⟩ := List.mem_map.mp hx
          have := List.of_mem_filter he
          simpa using this
        · simpa using hne
      rw [if_neg hemp, if_pos hpos]

/-- Claim C6: `closing_stock_value` computes, per item with posted entries up
to the cutoff, exactly the specified weighted-average value (0 for
non-positive closing quantity or no receipts, else the rounded product of
closing quantity and average receipt rate, rounded per item before summing);
and on Scenario B (purchase of 10 units at 5.00, then a sale of 4 units) it
yields 50.00 and then 30.00 with a balance of 6 units.  Amounts are in cents,
quantities in thousandths. -/
theorem closing_stock_value_matches_spec_formula :
    (∀ (st : BizState) (d : ℤ) (g : Option ℕ),
      closing_stock_value st (some d) g =
        ((itemIdsOf (entriesUpTo st d g)).map
          (fun i => specItemContribution (entriesUpTo st d g) i)).sum)
    ∧ closing_stock_value stC6a (some 0) none = 5000
    ∧ _stock_balance stC6b.entries 1 (some 1) = 6000
    ∧ closing_stock_value stC6b (some 0) none = 3000 := by
  refine ⟨?_, by decide, by decide, by decide⟩
  intro st d g
  unfold closing_stock_value
  simp only [itemClosingValue_eq_spec]

/-- Appending two posted entries of the same item whose quantities in equal
their quantities out leaves the item's all-godown posted balance unchanged. -/
theorem stock_balance_append_pair (entries : List SLE) (itemId : ℕ)
    (e1 e2 : SLE) (h1 : e1.isPosted = true) (h2 : e2.isPosted = true)
    (hi1 : e1.itemId = itemId) (hi2 : e2.itemId = itemId)
    (hq : e1.qtyIn + e2.qtyIn = e1.qtyOut + e2.qtyOut) :
    _stock_balance (entries ++ [e1, e2]) itemId none =
      _stock_balance entries itemId none := by
  unfold _stock_balance
  simp only [List.filter_append, List.filter_cons, List.filter_nil, h1, h2,
    hi1, hi2, beq_self_eq_true, Bool.and_self, Bool.true_and, Bool.and_true,
    if_true]
  simp only [List.map_append, List.sum_append, List.map_cons, List.map_nil,
    List.sum_cons, List.sum_nil]
  omega

/-- Claim C10: a successful stock journal appends exactly two posted entries,
agreeing on business, item, posting date, rate, amount and voucher type
STOCK_JOURNAL, one moving the quantity out of the source godown and one
moving it into the destination, and the item's total posted balance over all
godowns is unchanged. -/
theorem stock_journal_two_entries_balance_preserved (bid : ℕ)
    (entries : List SLE) (itemId fromG toG : ℕ) (qty rate : ℤ) (d : ℤ)
    (newE : List SLE)
    (h : stock_journal bid entries itemId fromG toG qty rate d = .ok newE) :
    ∃ eo ei : SLE,
      newE = entries ++ [eo, ei] ∧
      eo.businessId = bid ∧ ei.businessId = bid ∧
      eo.itemId = itemId ∧ ei.itemId = itemId ∧
      eo.postingDate = d ∧ ei.postingDate = d ∧
      eo.rate = rate ∧ ei.rate = rate ∧ eo.amount = ei.amount ∧
      eo.voucherType = "STOCK_JOURNAL" ∧ ei.voucherType = "STOCK_JOURNAL" ∧
      eo.isPosted = true ∧ ei.isPosted = true ∧
      eo.godownId = fromG ∧ eo.qtyIn = 0 ∧ eo.qtyOut = qty ∧
      ei.godownId = toG ∧ ei.qtyIn = qty ∧ ei.qtyOut = 0 ∧
      _stock_balance newE itemId none = _stock_balance entries itemId none := by
  unfold stock_journal at h
  by_cases hb : _stock_balance entries itemId (some fromG) < qty
  · simp [hb] at h
  · simp only [hb, if_false, Except.ok.injEq] at h
    subst h
    refine ⟨_, _, rfl, rfl, rfl, rfl, rfl, rfl, rfl, rfl, rfl, rfl, rfl, rfl,
      rfl, rfl, rfl, rfl, rfl, rfl, rfl, rfl, ?_⟩
    refine stock_balance_append_pair entries itemId _ _ ?_ ?_ ?_ ?_ ?_
    · rfl
    · rfl
    · rfl
    · rfl
    · ring

theorem stock_journal_two_entries_balance_preserved_witness :
    ∃ eo ei : SLE,
      sjResC10 = stC10.entries ++ [eo, ei] ∧
      eo.businessId = 1 ∧ ei.businessId = 1 ∧
      eo.itemId = 1 ∧ ei.itemId = 1 ∧
      eo.postingDate = 0 ∧ ei.postingDate = 0 ∧
      eo.rate = 400 ∧ ei.rate = 400 ∧ eo.amount = ei.amount ∧
      eo.voucherType = "STOCK_JOURNAL" ∧ ei.voucherType = "STOCK_JOURNAL" ∧
      eo.isPosted = true ∧ ei.isPosted = true ∧
      eo.godownId = 1 ∧ eo.qtyIn = 0 ∧ eo.qtyOut = 3000 ∧
      ei.godownId = 2 ∧ ei.qtyIn = 3000 ∧ ei.qtyOut = 0 ∧
      _stock_balance sjResC10 1 none = _stock_balance stC10.entries 1 none :=
  stock_journal_two_entries_balance_preserved 1 stC10.entries 1 1 2 3000 400 0
    sjResC10 rfl

/-- Claim C1 (violated by the code): on a business whose only P&L activity is
an other-income posting of 10.00 (1000 cents), the P&L satisfies the stated
COGS, gross-profit and net-profit equations, yet returns
`total_debit = 1000 ≠ 0 = total_credit`: the cross-check identity
`opening_stock + purchase_total + indirect_expense_total + net_profit ==
sales_total + closing_stock` fails by exactly `other_income_total`. -/
theorem pnl_crosscheck_identity_fails_with_other_income :
    pnlC1.other_income_total = 1000 ∧
    pnlC1.sales_total = 0 ∧ pnlC1.purchase_total = 0 ∧
    pnlC1.indirect_expense_total = 0 ∧
    pnlC1.opening_stock_value = 0 ∧ pnlC1.closing_stock_value = 0 ∧
    pnlC1.cogs = pnlC1.opening_stock_value + pnlC1.purchase_total -
      pnlC1.closing_stock_value ∧
    pnlC1.gross_profit = pnlC1.sales_total - pnlC1.cogs ∧
    pnlC1.net_profit = pnlC1.gross_profit - pnlC1.indirect_expense_total +
      pnlC1.other_income_total ∧
    pnlC1.total_debit = pnlC1.opening_stock_value + pnlC1.purchase_total +
      pnlC1.indirect_expense_total + pnlC1.net_profit ∧
    pnlC1.total_credit = pnlC1.sales_total + pnlC1.closing_stock_value ∧
    pnlC1.total_debit = 1000 ∧ pnlC1.total_credit = 0 ∧
    pnlC1.total_debit ≠ pnlC1.total_credit := by decide

/-- Claim C2 (violated by the code): with a posted balance of 6 units of item
1 in godown 1, a sales voucher holding two rows of the same item with
quantity 4 each passes the per-row stock check (each row is compared with the
same pre-transaction balance), succeeds, and persists stock entries that
drive the posted balance to -2 units.  Quantities are in thousandths. -/
theorem sales_voucher_multirow_overdraw :
    _stock_balance stC2.entries 1 (some 1) = 6000 ∧
    (4000 : ℤ) ≤ _stock_balance stC2.entries 1 (some 1) ∧
    _stock_balance stC2.entries 1 (some 1) < 4000 + 4000 ∧
    salesResC2.isOk = true ∧
    salesResC2.toOption.map (fun x => _stock_balance x.2 1 (some 1)) =
      some (-2000) ∧
    (-2000 : ℤ) < 0 := by decide

/-- Claim C3 (violated by the code): `stC3` has a fully posted, balanced
ledger (its single voucher is posted with equal debit and credit totals,
every ledger sits under a root group), yet the balance sheet returns
`total_assets = -1000 ≠ 0 = total_liabilities`. -/
theorem balance_sheet_identity_counterexample :
    (stC3.vouchers.all (fun v => v.isPosted &&
      ((vTotals v).1 == (vTotals v).2))) = true ∧
    bsC3.total_assets = -1000 ∧ bsC3.total_liabilities = 0 ∧
    bsC3.total_assets ≠ bsC3.total_liabilities := by decide

/-- Walk step: a revisited id resolves to `none`. -/
theorem walkF_seen {m : List Accnt} {fuel : ℕ} {seen : List ℕ} {aid : ℕ}
    (h : aid ∈ seen) : walkF m (fuel + 1) seen aid = none := by
  unfold walkF
  simp [h]

/-- Walk step: a fresh id whose account has no parent resolves to the stored
root type. -/
theorem walkF_root {m : List Accnt} {fuel : ℕ} {seen : List ℕ} {aid : ℕ}
    {a : Accnt} (hs : aid ∉ seen)
    (hf : m.find? (fun x => x.id == aid) = some a) (hp : a.parentId = none) :
    walkF m (fuel + 1) seen aid = a.rootType := by
  unfold walkF
  simp [hs, hf, hp]

/-- Walk step: a fresh id with a parent delegates to the parent, with the id
added to `seen`. -/
theorem walkF_step {m : List Accnt} {fuel : ℕ} {seen : List ℕ} {aid pid : ℕ}
    {a : Accnt} (hs : aid ∉ seen)
    (hf : m.find? (fun x => x.id == aid) = some a)
    (hp : a.parentId = some pid) :
    walkF m (fuel + 1) seen aid = walkF m fuel (aid :: seen) pid := by
  conv_lhs => unfold walkF
  simp [hs, hf, hp]

/-- Every id on a rooted chain is an id of the account list. -/
theorem chain_subset_ids {m : List Accnt} {aid : ℕ} {p : List ℕ}
    {rt : Option RootT} (h : Chain m aid p rt) :
    ∀ x ∈ p, x ∈ m.map (fun a => a.id) := by
  induction h with
  | root hf _ =>
    intro x hx
    rw [List.mem_singleton] at hx
    subst hx
    exact find?_id_mem hf
  | step hf _ _ ih =>
    intro x hx
    rcases List.mem_cons.mp hx with rfl | hx
    · exact find?_id_mem hf
    · exact ih x hx

/-- Every id on a partial parent path is an id of the account list. -/
theorem pathTo_subset_ids {m : List Accnt} {aid b : ℕ} {p : List ℕ}
    (h : PathTo m aid p b) : ∀ x ∈ p, x ∈ m.map (fun a => a.id) := by
  induction h with
  | nil => intro x hx; cases hx
  | cons hf _ _ ih =>
    intro x hx
    rcases List.mem_cons.mp hx with rfl | hx
    · exact find?_id_mem hf
    · exact ih x hx

/-- A duplicate-free list of account ids is no longer than the number of
distinct account ids. -/
theorem nodup_length_le_unseen {m : List Accnt} {p : List ℕ} (hnd : p.Nodup)
    (hsub : ∀ x ∈ p, x ∈ m.map (fun a => a.id)) :
    p.length ≤ unseenCount m [] := by
  have hcount : unseenCount m [] = ((m.map (fun a => a.id)).dedup).length := by
    simp [unseenCount]
  rw [hcount]
  refine (List.subperm_of_subset hnd ?_).length_le
  intro x hx
  exact List.mem_dedup.mpr (hsub x hx)

/-- Walking the whole of a duplicate-free rooted chain yields the root's
stored root type, given enough fuel. -/
theorem walkF_chain {m : List Accnt} {aid : ℕ} {p : List ℕ}
    {rt : Option RootT} (hchain : Chain m aid p rt) :
    ∀ (seen : List ℕ) (fuel : ℕ), p.Nodup → (∀ x ∈ p, x ∉ seen) →
      p.length ≤ fuel → walkF m fuel seen aid = rt := by
  induction hchain with
  | root hf hp =>
    intro seen fuel hnd hdisj hlen
    match fuel with
    | 0 => exact absurd hlen (by simp)
    | f + 1 => exact walkF_root (hdisj _ (by simp)) hf hp
  | step hf hp _ ih =>
    intro seen fuel hnd hdisj hlen
    match fuel with
    | 0 => exact absurd hlen (by simp)
    | f + 1 =>
      rw [walkF_step (hdisj _ (by simp)) hf hp]
      refine ih (_ :: seen) f (List.nodup_cons.mp hnd).2 ?_ ?_
      · intro x hx
        simp only [List.mem_cons]
        rintro (rfl | hxs)
        · exact (List.nodup_cons.mp hnd).1 hx
        · exact hdisj x (List.mem_cons_of_mem _ hx) hxs
      · have := hlen
        simp only [List.length_cons] at this
        omega

/-- Walking along a duplicate-free partial path spends one unit of fuel per
step and accumulates exactly the visited ids in `seen`. -/
theorem walkF_path {m : List Accnt} {aid b : ℕ} {p : List ℕ}
    (hpath : PathTo m aid p b) :
    ∀ (seen : List ℕ) (fuel : ℕ), p.Nodup → (∀ x ∈ p, x ∉ seen) →
      p.length ≤ fuel →
      walkF m fuel seen aid = walkF m (fuel - p.length) (p.reverse ++ seen) b := by
  induction hpath with
  | nil => intro seen fuel _ _ _; simp
  | @cons aid2 pid2 b2 a2 p2 hf hp _ ih =>
    intro seen fuel hnd hdisj hlen
    match fuel with
    | 0 => exact absurd hlen (by simp)
    | f + 1 =>
      rw [walkF_step (hdisj _ (by simp)) hf hp]
      have hdisj2 : ∀ x ∈ p2, x ∉ aid2 :: seen := by
        intro x hx
        simp only [List.mem_cons]
        rintro (rfl | hxs)
        · exact (List.nodup_cons.mp hnd).1 hx
        · exact hdisj x (List.mem_cons_of_mem _ hx) hxs
      have hlen2 : p2.length ≤ f := by
        have := hlen
        simp only [List.length_cons] at this
        omega
      rw [ih (aid2 :: seen) f (List.nodup_cons.mp hnd).2 hdisj2 hlen2]
      have hfl : f + 1 - (aid2 :: p2).length = f - p2.length := by
        simp only [List.length_cons]
        omega
      rw [hfl, List.reverse_cons, List.append_assoc, List.singleton_append]

/-- Claim C9: the parent-chain walk of `_resolve_root_types` (i) stabilises at
the fuel its visited-set termination argument provides, for every account
graph, so the iteration terminates; (ii) on an account whose parent chain runs
into a cycle it resolves to `none` (unresolved) instead of looping; (iii) on a
duplicate-free chain to a null-parent root it resolves to that root's stored
root type. -/
theorem resolve_root_walk_terminates_cycle_chain (m : List Accnt) :
    (∀ (fuel : ℕ) (seen : List ℕ) (aid : ℕ), unseenCount m seen < fuel →
      walkF m fuel seen aid = walkRoot m seen aid)
    ∧ (∀ (aid b : ℕ) (p : List ℕ) (bacc : Accnt) (c : ℕ),
        PathTo m aid p b → (b :: p).Nodup →
        m.find? (fun x => x.id == b) = some bacc → bacc.parentId = some c →
        c ∈ b :: p → walkRoot m [] aid = none)
    ∧ (∀ (aid : ℕ) (p : List ℕ) (rt : Option RootT),
        Chain m aid p rt → p.Nodup → walkRoot m [] aid = rt) := by
  refine ⟨?_, ?_, ?_⟩
  · intro fuel seen aid h
    unfold walkRoot
    exact walkF_congr m fuel (unseenCount m seen + 1) seen aid h (by omega)
  · intro aid b p bacc c hpath hnd hf hpar hc
    have hpnd : p.Nodup := (List.nodup_cons.mp hnd).2
    have hbp : b ∉ p := (List.nodup_cons.mp hnd).1
    have hlen : p.length ≤ unseenCount m [] :=
      nodup_length_le_unseen hpnd (pathTo_subset_ids hpath)
    unfold walkRoot
    rw [walkF_path hpath [] (unseenCount m [] + 1) hpnd (by simp) (by omega)]
    have hsplit : unseenCount m [] + 1 - p.length =
        (unseenCount m [] - p.length) + 1 := by omega
    rw [hsplit]
    have hbnot : b ∉ p.reverse ++ ([] : List ℕ) := by
      simpa [List.mem_reverse] using hbp
    rw [walkF_step hbnot hf hpar]
    have hcmem : c ∈ b :: (p.reverse ++ ([] : List ℕ)) := by
      rcases List.mem_cons.mp hc with rfl | hcp
      · exact List.mem_cons_self _ _
      · exact List.mem_cons_of_mem _ (by simpa [List.mem_reverse] using hcp)
    match hfu : unseenCount m [] - p.length with
    | 0 => rfl
    | f + 1 => exact walkF_seen hcmem
  · intro aid p rt hch hnd
    have hlen : p.length ≤ unseenCount m [] :=
      nodup_length_le_unseen hnd (chain_subset_ids hch)
    unfold walkRoot
    exact walkF_chain hch [] (unseenCount m [] + 1) hnd (by simp) (by omega)

theorem resolve_root_walk_terminates_cycle_chain_witness :
    walkF mCyc 5 [] 1 = walkRoot mCyc [] 1
    ∧ walkRoot mCyc [] 1 = none
    ∧ walkRoot mChn [] 3 = some RootT.INCOME := by
  refine ⟨?_, ?_, ?_⟩
  · exact (resolve_root_walk_terminates_cycle_chain mCyc).1 5 [] 1 (by decide)
  · exact (resolve_root_walk_terminates_cycle_chain mCyc).2.1 1 2 [1] accB 1
      (PathTo.cons (a := accA) rfl rfl PathTo.nil) (by decide) rfl rfl
      (by decide)
  · exact (resolve_root_walk_terminates_cycle_chain mChn).2.2 3 [3, 4]
      (some RootT.INCOME)
      (Chain.step (a := accFees) rfl rfl (Chain.root (a := accIncomeRoot) rfl rfl))
      (by decide)

/-- The sum of the displayed amounts of `group_balances` rows is the sign
times the sum of the underlying descendant-ledger nets. -/
theorem group_balances_snd_sum (st : BizState) (ed : Option ℤ) (sign : ℤ) :
    ∀ rids : List ℕ,
      ((group_balances st ed rids sign).map (fun r => r.2)).sum =
        sign * (rids.filterMap (fun rid =>
          match findAcc st rid with
          | none => none
          | some a => if !a.isGroup then none
            else some (bsRootNet st ed rid))).sum := by
  intro rids
  induction rids with
  | nil => simp [group_balances]
  | cons r t ih =>
    unfold group_balances at ih ⊢
    rw [List.filterMap_cons, List.filterMap_cons]
    cases hf : findAcc st r with
    | none => simpa [hf] using ih
    | some a =>
      by_cases hg : a.isGroup = true
      · simp only [hf, hg, Bool.not_true, Bool.false_eq_true, if_false,
          List.map_cons, List.sum_cons]
        rw [ih]
        simp [quantize2, mul_add]
      · have hg2 : a.isGroup = false := by simpa using hg
        simp only [hf, hg2, Bool.not_false, if_true]
        exact ih

/-- Claim C3, amended: the balance sheet totals satisfy
`total_assets == total_liabilities` exactly when the gross profit drawn from
the P&L equals the sum of the asset-side and liability-side descendant-ledger
closing nets; the identity is not guaranteed for every fully posted, balanced
ledger (see the counterexample). -/
theorem balance_sheet_totals_identity_iff (st : BizState) (ed : Option ℤ) :
    (compute_balance_sheet st ed).total_assets =
      (compute_balance_sheet st ed).total_liabilities ↔
    (compute_balance_sheet st ed).gross_profit =
      assetNetSum st ed + liabilityNetSum st ed := by
  have ha := group_balances_snd_sum st ed 1 (assetRootIds st)
  have hl := group_balances_snd_sum st ed (-1) (liabilityRootIds st)
  unfold compute_balance_sheet assetNetSum liabilityNetSum
  simp only [quantize2]
  rw [ha, hl]
  constructor
  · intro h
    omega
  · intro h
    omega

end BizLedger
